import Mathlib

/-
Verification of the EIP-1186 proof-assembler core
(src/halo2/storage_proof/src/storage/mod.rs).

The circuit-building code is shallowly embedded as pure Lean functions.
A proving context `Ctx` records, in order, every equality constraint and
every sub-proof registration (Keccak queries, RLP decompositions, MPT
inclusion checks) that the source code emits; the chip methods of
`EthStorageChip` become state-passing functions over `Ctx`.  Machine
integers and field elements are modelled as `Nat`: the properties under
verification concern byte layout, call parameters and ordering, none of
which depend on the field modulus.  Fallible construction (the source
uses `assert_eq!`, which aborts witness generation) is modelled with
`Option`: `none` is an abort before the commit round completes.

Collaborator components that live outside the repository slice under
verification (Keccak chip, RLP decoder, MPT prover, block-header decoder,
byte/field conversion utilities) are modelled from the spec, as marked on
each definition; the orchestration in mod.rs is translated directly.
-/

namespace StorageVerify

/-- Modelled from the spec: big-endian byte decomposition utility
`uint_to_bytes_be` (util module, outside the verified slice): the
`len` big-endian base-256 digits of `x`. -/
def uint_to_bytes_be (x len : Nat) : List Nat :=
  (List.range len).map (fun i => x / 256 ^ (len - 1 - i) % 256)

/-- Modelled from the spec: `bytes_be_to_uint` (util module, outside the
verified slice): reinterpret the first `len` big-endian bytes as an
unsigned integer. -/
def bytes_be_to_uint (bytes : List Nat) (len : Nat) : Nat :=
  (bytes.take len).foldl (fun acc b => acc * 256 + b) 0

/-- Modelled from the spec: `bytes_be_var_to_fixed` (util module, outside
the verified slice): left-pad the variable-length big-endian byte string
(its first `len` bytes) with zeros to exactly `outLen` bytes. -/
def bytes_be_var_to_fixed (bytes : List Nat) (len outLen : Nat) : List Nat :=
  List.replicate (outLen - len) 0 ++ bytes.take len

/-- Modelled from the spec: `bytes_be_to_u128` (util module, outside the
verified slice) applied to a 32-byte string: the two 128-bit halves
(hi, lo), each read as a 16-byte big-endian integer. -/
def bytes_be_to_u128 (bytes : List Nat) : Nat × Nat :=
  (bytes_be_to_uint (bytes.take 16) 16, bytes_be_to_uint (bytes.drop 16) 16)

/-- Modelled from the spec: `encode_h256_to_field` (util module, outside
the verified slice): a 256-bit value as two 128-bit big-endian halves
(hi, lo). -/
def encode_h256_to_field (h : Nat) : Nat × Nat :=
  (h / 2 ^ 128, h % 2 ^ 128)

/-- Modelled from the spec: `encode_u256_to_field` (util module, outside
the verified slice): same hi/lo split as `encode_h256_to_field`. -/
def encode_u256_to_field (v : Nat) : Nat × Nat :=
  (v / 2 ^ 128, v % 2 ^ 128)

/-- Modelled from the spec: `encode_addr_to_field` (util module, outside
the verified slice): a 160-bit address as a single field element. -/
def encode_addr_to_field (a : Nat) : Nat := a

/-- `Vec::resize(n, v)` from the source: truncate to `n` elements when
longer, extend with copies of `v` when shorter. -/
def listResize (l : List Nat) (n v : Nat) : List Nat :=
  l.take n ++ List.replicate (n - l.length) v

/-- The two supported networks (from the source). -/
inductive Network
  | Mainnet
  | Goerli
  deriving DecidableEq, Repr

/-- The MPT fixed-key proof bundle, restricted to the fields that
mod.rs reads: key bytes, declared key byte length, RLP-encoded value
bytes, root hash bytes, declared maximum depth. -/
structure MPTFixedKeyProof where
  keyBytes : List Nat
  keyByteLen : Nat
  valueBytes : List Nat
  rootHashBytes : List Nat
  maxDepth : Nat
  deriving DecidableEq, Repr

/-- One decoded RLP field as exposed by the record decoder: byte cells
and a byte-length cell. -/
structure RlpFieldWitness where
  fieldCells : List Nat
  fieldLen : Nat
  deriving DecidableEq, Repr

/-- Witness of an RLP array decomposition (`RlpArrayTraceWitness`). -/
structure RlpArrayTraceWitness where
  fieldWitness : List RlpFieldWitness
  deriving DecidableEq, Repr

/-- Witness of a single RLP field decomposition
(`RlpFieldTraceWitness`); the source reads `.witness.field_cells` and
`.witness.field_len`. -/
structure RlpFieldTraceWitness where
  witness : RlpFieldWitness
  deriving DecidableEq, Repr

/-- Witness of one MPT fixed-key inclusion check, remembering the proof
and the parameters it was registered with. -/
structure MPTFixedKeyProofWitness where
  proof : MPTFixedKeyProof
  keyByteLen : Nat
  valueMaxByteLen : Nat
  maxDepth : Nat
  deriving DecidableEq, Repr

/-- Modelled from the spec: the collaborator interfaces the core
consumes, outside the verified slice — the Keccak-256 hasher, the RLP
array/field decoders, the block-header field decoder, and the two
network-specific maximum header lengths.  Each is an opaque-to-the-core
function; the claims verified here depend only on which arguments the
core passes to them and on what the core does with their outputs. -/
structure Collaborators where
  keccakF : List Nat → List Nat
  rlpArrayDecode : List Nat → List Nat → List RlpFieldWitness
  rlpFieldDecode : List Nat → Nat → RlpFieldWitness
  headerDecode : List Nat → List RlpFieldWitness
  goerliMaxBytes : Nat
  mainnetMaxBytes : Nat

/-- The proving context: every constraint and sub-proof registration the
commit and challenge rounds emit, in emission order.  Two runs have the
same constraint topology exactly when their final contexts are equal. -/
structure Ctx where
  eqs : List (Nat × Nat)
  fixedQueries : List (List Nat)
  varQueries : List (List Nat)
  rlpArrayCalls : List (List Nat × List Nat)
  rlpFieldCalls : List (List Nat × Nat)
  mptCalls : List (MPTFixedKeyProof × Nat × Nat × Nat)
  accountCalls : List (List Nat × List Nat × MPTFixedKeyProof)
  storageCalls : List (List Nat × List Nat × MPTFixedKeyProof)
  mptPhase1 : List MPTFixedKeyProofWitness
  rlpArrayPhase1 : List (List RlpFieldWitness)
  rlpFieldPhase1 : List RlpFieldWitness
  headerPhase1 : List (List RlpFieldWitness)
  deriving DecidableEq, Repr

/-- The empty proving context. -/
def Ctx.empty : Ctx := ⟨[], [], [], [], [], [], [], [], [], [], [], []⟩

/-- `ctx.constrain_equal` iterated over a list of byte pairs. -/
def constrainEqs (ctx : Ctx) (ps : List (Nat × Nat)) : Ctx :=
  { ctx with eqs := ctx.eqs ++ ps }

/-- Register a fixed-length Keccak query (`keccak_fixed_len`) and return
its output bytes (the collaborator hash of the registered input). -/
def keccak_fixed_len (C : Collaborators) (ctx : Ctx) (input : List Nat) :
    List Nat × Ctx :=
  (C.keccakF input, { ctx with fixedQueries := ctx.fixedQueries ++ [input] })

/-- Register a variable-length Keccak query; returns the query index. -/
def keccak_var_len (ctx : Ctx) (input : List Nat) : Nat × Ctx :=
  (ctx.varQueries.length, { ctx with varQueries := ctx.varQueries ++ [input] })

/-- Output bytes of a registered variable-length Keccak query. -/
def varQueryOutput (C : Collaborators) (ctx : Ctx) (idx : Nat) : List Nat :=
  C.keccakF (ctx.varQueries.getD idx [])

/-- `decompose_rlp_array_phase0`: register the decomposition of an RLP
array with the given per-field maximum byte lengths and return the
decoded field witnesses. -/
def decompose_rlp_array_phase0 (C : Collaborators) (ctx : Ctx)
    (bytes maxFieldLens : List Nat) : RlpArrayTraceWitness × Ctx :=
  (⟨C.rlpArrayDecode bytes maxFieldLens⟩,
   { ctx with rlpArrayCalls := ctx.rlpArrayCalls ++ [(bytes, maxFieldLens)] })

/-- `decompose_rlp_field_phase0`: register the decomposition of a single
RLP field with the given maximum byte length. -/
def decompose_rlp_field_phase0 (C : Collaborators) (ctx : Ctx)
    (bytes : List Nat) (maxLen : Nat) : RlpFieldTraceWitness × Ctx :=
  (⟨C.rlpFieldDecode bytes maxLen⟩,
   { ctx with rlpFieldCalls := ctx.rlpFieldCalls ++ [(bytes, maxLen)] })

/-- `parse_mpt_inclusion_fixed_key_phase0`: register an MPT fixed-key
inclusion check with key byte length, maximum value byte length and
maximum depth. -/
def parse_mpt_inclusion_fixed_key_phase0 (ctx : Ctx)
    (proof : MPTFixedKeyProof) (keyByteLen valueMaxByteLen maxDepth : Nat) :
    MPTFixedKeyProofWitness × Ctx :=
  (⟨proof, keyByteLen, valueMaxByteLen, maxDepth⟩,
   { ctx with mptCalls := ctx.mptCalls ++ [(proof, keyByteLen, valueMaxByteLen, maxDepth)] })

/-- Account-proof witness (`EthAccountTraceWitness`): the decoded
4-field RLP record and the registered MPT inclusion check. -/
structure EthAccountTraceWitness where
  arrayWitness : RlpArrayTraceWitness
  mptWitness : MPTFixedKeyProofWitness
  deriving DecidableEq, Repr

/-- Storage-proof witness (`EthStorageTraceWitness`). -/
structure EthStorageTraceWitness where
  valueWitness : RlpFieldTraceWitness
  mptWitness : MPTFixedKeyProofWitness
  deriving DecidableEq, Repr

/-- Block-header witness (`EthBlockHeaderTraceWitness`): decoded header
fields plus the handle of the header's own Keccak hash query. -/
structure EthBlockHeaderTraceWitness where
  rlpWitness : RlpArrayTraceWitness
  blockHashQueryIdx : Nat
  deriving DecidableEq, Repr

/-- The public digest (`EIP1186ResponseDigest`): block hash as two
128-bit halves, block number, address, and the (slot, value) pairs, each
as 128-bit halves. -/
structure EIP1186ResponseDigest where
  blockHash : Nat × Nat
  blockNumber : Nat
  address : Nat
  slotsValues : List ((Nat × Nat) × (Nat × Nat))
  deriving DecidableEq, Repr

/-- Composed witness (`EthBlockAccountStorageTraceWitness`). -/
structure EthBlockAccountStorageTraceWitness where
  blockWitness : EthBlockHeaderTraceWitness
  acctWitness : EthAccountTraceWitness
  storageWitness : List EthStorageTraceWitness
  digest : EIP1186ResponseDigest
  deriving DecidableEq, Repr

/-- Assigned storage input (`EthStorageInputAssigned`): address as one
field element, account proof, and (slot as hi/lo halves, proof) pairs. -/
structure EthStorageInputAssigned where
  address : Nat
  acctPf : MPTFixedKeyProof
  storagePfs : List ((Nat × Nat) × MPTFixedKeyProof)
  deriving DecidableEq, Repr

/-- Assigned block-storage input (`EthBlockStorageInputAssigned`):
declared block hash as hi/lo halves, raw header bytes, storage input. -/
structure EthBlockStorageInputAssigned where
  blockHash : Nat × Nat
  blockHeader : List Nat
  storage : EthStorageInputAssigned
  deriving DecidableEq, Repr

/-- Modelled from the spec: `decompose_block_header_phase0` (block_header
module, outside the verified slice): decode the (already padded) header
into its fields and register the header's own Keccak hash query,
exposing the query handle. -/
def decompose_block_header_phase0 (C : Collaborators) (ctx : Ctx)
    (header : List Nat) : EthBlockHeaderTraceWitness × Ctx :=
  let p := keccak_var_len ctx header
  (⟨⟨C.headerDecode header⟩, p.1⟩, p.2)

/-- The network-specific maximum header byte length used by the source
(`MAINNET_BLOCK_HEADER_RLP_MAX_BYTES` / `GOERLI_BLOCK_HEADER_RLP_MAX_BYTES`). -/
def networkMaxLen (C : Collaborators) : Network → Nat
  | Network.Goerli => C.goerliMaxBytes
  | Network.Mainnet => C.mainnetMaxBytes

/-- `parse_account_proof_phase0` (mod.rs lines 148-185): assert the
declared key byte length is 32 and the address is 20 bytes; register
Keccak of the address and constrain its output byte-for-byte to the
proof key; constrain the proof root byte-for-byte to the supplied state
root; register the RLP decomposition of the proof value with per-field
maximums [33, 13, 33, 33]; register the MPT inclusion check with key
length 32, maximum value length 114 and the declared depth. -/
def parse_account_proof_phase0 (C : Collaborators) (ctx : Ctx)
    (stateRootBytes addr : List Nat) (proof : MPTFixedKeyProof) :
    Option (EthAccountTraceWitness × Ctx) :=
  if proof.keyByteLen = 32 ∧ addr.length = 20 then
    let ctx0 := { ctx with accountCalls := ctx.accountCalls ++ [(stateRootBytes, addr, proof)] }
    let p := keccak_fixed_len C ctx0 addr
    let ctx1 := constrainEqs p.2 (p.1.zip proof.keyBytes)
    let ctx2 := constrainEqs ctx1 (proof.rootHashBytes.zip stateRootBytes)
    let q := decompose_rlp_array_phase0 C ctx2 proof.valueBytes [33, 13, 33, 33]
    let r := parse_mpt_inclusion_fixed_key_phase0 q.2 proof 32 114 proof.maxDepth
    some (⟨q.1, r.1⟩, r.2)
  else none

/-- `parse_storage_proof_phase0` (mod.rs lines 205-235): assert the
declared key byte length is 32; register Keccak of the slot and
constrain its output to the proof key; constrain the proof root to the
supplied storage root; register the RLP field decomposition of the value
with maximum length 32; register the MPT inclusion check with key length
32, maximum value length 33 and the declared depth. -/
def parse_storage_proof_phase0 (C : Collaborators) (ctx : Ctx)
    (storageRootBytes slot : List Nat) (proof : MPTFixedKeyProof) :
    Option (EthStorageTraceWitness × Ctx) :=
  if proof.keyByteLen = 32 then
    let ctx0 := { ctx with storageCalls := ctx.storageCalls ++ [(storageRootBytes, slot, proof)] }
    let p := keccak_fixed_len C ctx0 slot
    let ctx1 := constrainEqs p.2 (p.1.zip proof.keyBytes)
    let ctx2 := constrainEqs ctx1 (proof.rootHashBytes.zip storageRootBytes)
    let q := decompose_rlp_field_phase0 C ctx2 proof.valueBytes 32
    let r := parse_mpt_inclusion_fixed_key_phase0 q.2 proof 32 33 proof.maxDepth
    some (⟨q.1, r.1⟩, r.2)
  else none

/-- Helper for `parse_eip1186_proofs_phase0`: run the storage-proof
verifier over the (slot bytes, proof) list in input order, all against
the same storage root. -/
def parseStorageList (C : Collaborators) (root : List Nat) :
    Ctx → List (List Nat × MPTFixedKeyProof) →
    Option (List EthStorageTraceWitness × Ctx)
  | ctx, [] => some ([], ctx)
  | ctx, sp :: rest =>
    match parse_storage_proof_phase0 C ctx root sp.1 sp.2 with
    | none => none
    | some (w, ctx1) =>
      match parseStorageList C root ctx1 rest with
      | none => none
      | some (ws, ctx2) => some (w :: ws, ctx2)

/-- `parse_eip1186_proofs_phase0` (mod.rs lines 249-268): verify the
account proof, then verify each storage proof against the byte cells of
field index 2 (the storage root) of the decoded account record. -/
def parse_eip1186_proofs_phase0 (C : Collaborators) (ctx : Ctx)
    (stateRoot addr : List Nat) (acctPf : MPTFixedKeyProof)
    (storagePfs : List (List Nat × MPTFixedKeyProof)) :
    Option ((EthAccountTraceWitness × List EthStorageTraceWitness) × Ctx) :=
  match parse_account_proof_phase0 C ctx stateRoot addr acctPf with
  | none => none
  | some (acctW, ctx1) =>
    let storageRoot := (acctW.arrayWitness.fieldWitness.getD 2 ⟨[], 0⟩).fieldCells
    match parseStorageList C storageRoot ctx1 storagePfs with
    | none => none
    | some (ws, ctx2) => some ((acctW, ws), ctx2)

/-- Big-endian byte expansion of a hi/lo pair of 128-bit halves, as the
source does with `uint_to_bytes_be(.., 16)` on each half. -/
def h256Bytes (h : Nat × Nat) : List Nat :=
  uint_to_bytes_be h.1 16 ++ uint_to_bytes_be h.2 16

/-- The hi/lo value a storage witness contributes to the digest: the
decoded RLP value bytes, zero-left-padded to 32 bytes, split into two
128-bit halves (mod.rs lines 343-350). -/
def slotDigestValue (C : Collaborators) (proof : MPTFixedKeyProof) : Nat × Nat :=
  let fw := C.rlpFieldDecode proof.valueBytes 32
  bytes_be_to_u128 (bytes_be_var_to_fixed fw.fieldCells fw.fieldLen 32)

/-- Helper for `parse_eip1186_proofs_from_block_phase0`: the per-slot
loop of mod.rs lines 334-354 — expand the slot halves to 32 bytes,
verify the storage proof against the account storage root, and collect
the (slot, value) digest pairs in input order. -/
def parseStorageListBlock (C : Collaborators) (root : List Nat) :
    Ctx → List ((Nat × Nat) × MPTFixedKeyProof) →
    Option (List EthStorageTraceWitness × List ((Nat × Nat) × (Nat × Nat)) × Ctx)
  | ctx, [] => some ([], [], ctx)
  | ctx, sp :: rest =>
    match parse_storage_proof_phase0 C ctx root (h256Bytes sp.1) sp.2 with
    | none => none
    | some (w, ctx1) =>
      match parseStorageListBlock C root ctx1 rest with
      | none => none
      | some (ws, svs, ctx2) =>
        some (w :: ws, (sp.1, slotDigestValue C sp.2) :: svs, ctx2)

/-- `parse_eip1186_proofs_from_block_phase0` (mod.rs lines 286-361):
expand the declared block hash to 32 bytes; resize the header to the
network maximum and decode it; take the candidate state root from header
field index 3; constrain the expanded declared hash byte-for-byte to the
output of the header's own Keccak query; compute the block number by
left-padding header field index 8 to 4 bytes and reading it big-endian;
reconstruct the 20 address bytes; verify the account proof against the
header's state root; verify each storage proof against field index 2 of
the decoded account record, collecting digest (slot, value) pairs. -/
def parse_eip1186_proofs_from_block_phase0 (C : Collaborators) (ctx : Ctx)
    (input : EthBlockStorageInputAssigned) (network : Network) :
    Option (EthBlockAccountStorageTraceWitness × Ctx) :=
  let blockHash := input.blockHash
  let address := input.storage.address
  let blockHashBytes0 := h256Bytes blockHash
  let maxLen := networkMaxLen C network
  let blockHeader := listResize input.blockHeader maxLen 0
  let pb := decompose_block_header_phase0 C ctx blockHeader
  let blockWitness := pb.1
  let stateRoot := (blockWitness.rlpWitness.fieldWitness.getD 3 ⟨[], 0⟩).fieldCells
  let blockHashBytes1 := varQueryOutput C pb.2 blockWitness.blockHashQueryIdx
  let ctx2 := constrainEqs pb.2 (blockHashBytes0.zip blockHashBytes1)
  let bnField := blockWitness.rlpWitness.fieldWitness.getD 8 ⟨[], 0⟩
  let blockNumber :=
    bytes_be_to_uint (bytes_be_var_to_fixed bnField.fieldCells bnField.fieldLen 4) 4
  let addrBytes := uint_to_bytes_be address 20
  match parse_account_proof_phase0 C ctx2 stateRoot addrBytes input.storage.acctPf with
  | none => none
  | some (acctW, ctx3) =>
    let storageRoot := (acctW.arrayWitness.fieldWitness.getD 2 ⟨[], 0⟩).fieldCells
    match parseStorageListBlock C storageRoot ctx3 input.storage.storagePfs with
    | none => none
    | some (ws, svs, ctx4) =>
      some (⟨blockWitness, acctW, ws, ⟨blockHash, blockNumber, address, svs⟩⟩, ctx4)

/-- Finalized account trace (`EthAccountTrace`): the four confirmed
record fields. -/
structure EthAccountTrace where
  nonceTrace : RlpFieldWitness
  balanceTrace : RlpFieldWitness
  storageRootTrace : RlpFieldWitness
  codeHashTrace : RlpFieldWitness
  deriving DecidableEq, Repr

/-- Finalized storage trace (`EthStorageTrace`). -/
structure EthStorageTrace where
  valueBytes : List Nat
  deriving DecidableEq, Repr

/-- Finalized block-header trace (`EthBlockHeaderTrace`), reduced to its
decoded fields. -/
structure EthBlockHeaderTrace where
  fields : List RlpFieldWitness
  deriving DecidableEq, Repr

/-- Composed finalized trace (`EthBlockAccountStorageTrace`). -/
structure EthBlockAccountStorageTrace where
  blockTrace : EthBlockHeaderTrace
  acctTrace : EthAccountTrace
  storageTrace : List EthStorageTrace
  digest : EIP1186ResponseDigest
  deriving DecidableEq, Repr

/-- Modelled from the spec: `parse_mpt_inclusion_fixed_key_phase1` (MPT
module, outside the verified slice): discharge the challenge-bound
byte-consistency obligations of a registered inclusion check. -/
def parse_mpt_inclusion_fixed_key_phase1 (ctx : Ctx)
    (w : MPTFixedKeyProofWitness) : Ctx :=
  { ctx with mptPhase1 := ctx.mptPhase1 ++ [w] }

/-- Modelled from the spec: `decompose_rlp_array_phase1` (RLP module,
outside the verified slice): discharge the challenge-bound trace pass;
the confirmed per-field traces carry the byte cells and lengths of the
witness pass. -/
def decompose_rlp_array_phase1 (ctx : Ctx) (w : RlpArrayTraceWitness) :
    List RlpFieldWitness × Ctx :=
  (w.fieldWitness, { ctx with rlpArrayPhase1 := ctx.rlpArrayPhase1 ++ [w.fieldWitness] })

/-- Modelled from the spec: `decompose_rlp_field_phase1` (RLP module,
outside the verified slice). -/
def decompose_rlp_field_phase1 (ctx : Ctx) (w : RlpFieldTraceWitness) :
    RlpFieldWitness × Ctx :=
  (w.witness, { ctx with rlpFieldPhase1 := ctx.rlpFieldPhase1 ++ [w.witness] })

/-- Modelled from the spec: `decompose_block_header_phase1` (block_header
module, outside the verified slice). -/
def decompose_block_header_phase1 (ctx : Ctx)
    (w : EthBlockHeaderTraceWitness) : EthBlockHeaderTrace × Ctx :=
  (⟨w.rlpWitness.fieldWitness⟩,
   { ctx with headerPhase1 := ctx.headerPhase1 ++ [w.rlpWitness.fieldWitness] })

/-- `parse_account_proof_phase1` (mod.rs lines 187-203): discharge the
MPT obligations, discharge the RLP array trace, and split the four field
traces into nonce, balance, storage root, code hash. -/
def parse_account_proof_phase1 (ctx : Ctx) (w : EthAccountTraceWitness) :
    EthAccountTrace × Ctx :=
  let ctx1 := parse_mpt_inclusion_fixed_key_phase1 ctx w.mptWitness
  let p := decompose_rlp_array_phase1 ctx1 w.arrayWitness
  (⟨p.1.getD 0 ⟨[], 0⟩, p.1.getD 1 ⟨[], 0⟩, p.1.getD 2 ⟨[], 0⟩, p.1.getD 3 ⟨[], 0⟩⟩, p.2)

/-- `parse_storage_proof_phase1` (mod.rs lines 237-247). -/
def parse_storage_proof_phase1 (ctx : Ctx) (w : EthStorageTraceWitness) :
    EthStorageTrace × Ctx :=
  let ctx1 := parse_mpt_inclusion_fixed_key_phase1 ctx w.mptWitness
  let p := decompose_rlp_field_phase1 ctx1 w.valueWitness
  (⟨p.1.fieldCells⟩, p.2)

/-- Helper: phase1 of each storage witness in order. -/
def storagePhase1List : Ctx → List EthStorageTraceWitness →
    List EthStorageTrace × Ctx
  | ctx, [] => ([], ctx)
  | ctx, w :: ws =>
    let p := parse_storage_proof_phase1 ctx w
    let q := storagePhase1List p.2 ws
    (p.1 :: q.1, q.2)

/-- `parse_eip1186_proofs_phase1` (mod.rs lines 270-284). -/
def parse_eip1186_proofs_phase1 (ctx : Ctx)
    (w : EthAccountTraceWitness × List EthStorageTraceWitness) :
    (EthAccountTrace × List EthStorageTrace) × Ctx :=
  let p := parse_account_proof_phase1 ctx w.1
  let q := storagePhase1List p.2 w.2
  ((p.1, q.1), q.2)

/-- `parse_eip1186_proofs_from_block_phase1` (mod.rs lines 363-380):
discharge the header, account and storage obligations; the digest is
taken from the commit-phase witness unchanged. -/
def parse_eip1186_proofs_from_block_phase1 (ctx : Ctx)
    (w : EthBlockAccountStorageTraceWitness) :
    EthBlockAccountStorageTrace × Ctx :=
  let pb := decompose_block_header_phase1 ctx w.blockWitness
  let pa := parse_eip1186_proofs_phase1 pb.2 (w.acctWitness, w.storageWitness)
  (⟨pb.1, pa.1.1, pa.1.2, w.digest⟩, pa.2)

/-- Raw (off-circuit) MPT proof bundle (`MPTFixedKeyInput`), restricted
to the data the verified slice consumes after assignment. -/
structure MPTFixedKeyInput where
  keyBytes : List Nat
  keyByteLen : Nat
  valueBytes : List Nat
  rootHashBytes : List Nat
  maxDepth : Nat
  deriving DecidableEq, Repr

/-- Modelled from the spec: the trie-proof assigner (outside the
verified slice) loads each bundle field as circuit-tracked cells,
adding no constraints — pure staging (spec section 4.4). -/
def MPTFixedKeyInput.assign (inp : MPTFixedKeyInput) : MPTFixedKeyProof :=
  ⟨inp.keyBytes, inp.keyByteLen, inp.valueBytes, inp.rootHashBytes, inp.maxDepth⟩

/-- Raw storage input (`EthStorageInput`): address, account proof, and
(slot, claimed value, proof) triples. -/
structure EthStorageInput where
  addr : Nat
  acctPf : MPTFixedKeyInput
  storagePfs : List (Nat × Nat × MPTFixedKeyInput)
  deriving DecidableEq, Repr

/-- `EthStorageInput::assign` (mod.rs lines 399-420): load the address
and each slot as field elements (the claimed value is dropped here) and
assign each proof bundle. -/
def EthStorageInput.assign (inp : EthStorageInput) : EthStorageInputAssigned :=
  { address := encode_addr_to_field inp.addr,
    acctPf := inp.acctPf.assign,
    storagePfs := inp.storagePfs.map (fun t => (encode_h256_to_field t.1, t.2.2.assign)) }

/-- Raw block-storage input (`EthBlockStorageInput`).  The `block` field
of the source (a full RPC block) is never read by the verified slice and
is omitted. -/
structure EthBlockStorageInput where
  blockNumber : Nat
  blockHash : Nat
  blockHeader : List Nat
  storage : EthStorageInput
  deriving DecidableEq, Repr

/-- `EthBlockStorageInput::assign` (mod.rs lines 422-438). -/
def EthBlockStorageInput.assign (inp : EthBlockStorageInput) :
    EthBlockStorageInputAssigned :=
  { blockHash := encode_h256_to_field inp.blockHash,
    blockHeader := inp.blockHeader,
    storage := inp.storage.assign }

/-- The circuit (`EthBlockStorageCircuit`). -/
structure EthBlockStorageCircuit where
  inputs : EthBlockStorageInput
  network : Network
  deriving DecidableEq, Repr

/-- `EthBlockStorageCircuit::instance` (mod.rs lines 488-500): the
externally computed public values — block hash halves, block number,
address, then per claimed (slot, value) pair the slot halves and value
halves, in input order. -/
def EthBlockStorageCircuit.instanceVec (c : EthBlockStorageCircuit) : List Nat :=
  [(encode_h256_to_field c.inputs.blockHash).1,
   (encode_h256_to_field c.inputs.blockHash).2,
   c.inputs.blockNumber,
   encode_addr_to_field c.inputs.storage.addr] ++
  c.inputs.storage.storagePfs.flatMap (fun t =>
    [(encode_h256_to_field t.1).1, (encode_h256_to_field t.1).2,
     (encode_u256_to_field t.2.1).1, (encode_u256_to_field t.2.1).2])

/-- `CircuitExt::num_instance` (mod.rs lines 886-888). -/
def EthBlockStorageCircuit.num_instance (c : EthBlockStorageCircuit) : List Nat :=
  [4 + 4 * c.inputs.storage.storagePfs.length]

/-- `CircuitExt::instances` (mod.rs lines 890-892). -/
def EthBlockStorageCircuit.instances (c : EthBlockStorageCircuit) : List (List Nat) :=
  [c.instanceVec]

/-- The instance cells extracted from the in-circuit digest at the end
of `synthesize` (mod.rs lines 858-868): block hash halves, block number,
address, then slot and value halves per slot. -/
def digestInstance (d : EIP1186ResponseDigest) : List Nat :=
  [d.blockHash.1, d.blockHash.2, d.blockNumber, d.address] ++
  d.slotsValues.flatMap (fun sv => [sv.1.1, sv.1.2, sv.2.1, sv.2.2])

/-- `EthBlockStorageCircuit::synthesize` (mod.rs lines 809-882): assign
the raw inputs, run the commit phase, run the challenge-response phase,
and bind the digest cells to the public instance in order. -/
def synthesize (C : Collaborators) (c : EthBlockStorageCircuit) :
    Option (List Nat × Ctx) :=
  match parse_eip1186_proofs_from_block_phase0 C Ctx.empty c.inputs.assign c.network with
  | none => none
  | some (w, ctx1) =>
    let p := parse_eip1186_proofs_from_block_phase1 ctx1 w
    some (digestInstance p.1.digest, p.2)

/-- The block number the pipeline digests for a given raw header: header
field index 8 of the resized header, left-padded to 4 bytes, read as a
big-endian unsigned integer. -/
def headerBlockNumber (C : Collaborators) (header : List Nat) (nw : Network) : Nat :=
  let f := (C.headerDecode (listResize header (networkMaxLen C nw) 0)).getD 8 ⟨[], 0⟩
  bytes_be_to_uint (bytes_be_var_to_fixed f.fieldCells f.fieldLen 4) 4

/-- Spec-comparison definition: the externally computed public values of
`EthBlockStorageCircuit::instance`, repackaged in the in-circuit digest
shape — declared block hash halves, declared block number, address, and
the claimed (slot, value) pairs as halves.  Used to state that the
external instance follows the same hi/lo field encoding and layout as
the in-circuit digest. -/
def external_digest (c : EthBlockStorageCircuit) : EIP1186ResponseDigest :=
  { blockHash := encode_h256_to_field c.inputs.blockHash,
    blockNumber := c.inputs.blockNumber,
    address := encode_addr_to_field c.inputs.storage.addr,
    slotsValues := c.inputs.storage.storagePfs.map
      (fun t => (encode_h256_to_field t.1, encode_u256_to_field t.2.1)) }

/-! Concrete sample collaborators and inputs used to instantiate the
universally quantified theorems below on executable data. -/

/-- A concrete, fully computable collaborator instantiation. -/
def sampleC : Collaborators :=
  { keccakF := fun l => List.replicate 32 (l.length % 256),
    rlpArrayDecode := fun bytes maxLens => maxLens.map (fun n => ⟨bytes.take n, n⟩),
    rlpFieldDecode := fun bytes maxLen => ⟨bytes.take maxLen, maxLen⟩,
    headerDecode := fun h => List.replicate 16 ⟨h.take 4, 4⟩,
    goerliMaxBytes := 3,
    mainnetMaxBytes := 2 }

/-- A concrete raw proof bundle with declared key length 32. -/
def samplePfIn : MPTFixedKeyInput :=
  ⟨List.replicate 32 5, 32, [7, 9], List.replicate 32 6, 4⟩

/-- The sample bundle after assignment. -/
def samplePf : MPTFixedKeyProof := samplePfIn.assign

/-- A raw proof bundle whose declared key length is not 32. -/
def samplePfBad : MPTFixedKeyProof := ⟨List.replicate 32 5, 31, [7, 9], List.replicate 32 6, 4⟩

/-- A concrete 20-byte address. -/
def sampleAddrBytes : List Nat := List.replicate 20 2

/-- A concrete raw circuit input with one storage slot and an oversized
(3-byte, versus the sample mainnet maximum of 2) header. -/
def sampleRaw : EthBlockStorageInput :=
  ⟨5, 3, [1, 2, 3], ⟨9, samplePfIn, [(4, 6, samplePfIn)]⟩⟩

/-- The sample circuit. -/
def sampleCircuit : EthBlockStorageCircuit := ⟨sampleRaw, Network.Mainnet⟩

/-! Helper lemmas. -/

theorem listResize_length (l : List Nat) (n v : Nat) :
    (listResize l n v).length = n := by
  simp [listResize]
  omega

theorem listResize_idem (l : List Nat) (n v : Nat) :
    listResize (listResize l n v) n v = listResize l n v := by
  have h : (listResize l n v).length = n := listResize_length l n v
  conv_lhs => rw [listResize]
  rw [h, List.take_of_length_le (le_of_eq h), Nat.sub_self, List.replicate_zero,
    List.append_nil]

theorem getD_concat_length {α : Type} (l : List α) (a d : α) :
    (l ++ [a]).getD l.length d = a := by
  induction l with
  | nil => rfl
  | cons x xs ih => simp only [List.cons_append, List.length_cons, List.getD_cons_succ]; exact ih

/-- Explicit result of the account-proof commit phase when its shape
preconditions hold. -/
theorem parse_account_proof_phase0_explicit (C : Collaborators) (ctx : Ctx)
    (root addr : List Nat) (pf : MPTFixedKeyProof)
    (hk : pf.keyByteLen = 32) (ha : addr.length = 20) :
    parse_account_proof_phase0 C ctx root addr pf =
      some (⟨⟨C.rlpArrayDecode pf.valueBytes [33, 13, 33, 33]⟩, ⟨pf, 32, 114, pf.maxDepth⟩⟩,
        { ctx with
          accountCalls := ctx.accountCalls ++ [(root, addr, pf)],
          fixedQueries := ctx.fixedQueries ++ [addr],
          eqs := ctx.eqs ++ (C.keccakF addr).zip pf.keyBytes ++ pf.rootHashBytes.zip root,
          rlpArrayCalls := ctx.rlpArrayCalls ++ [(pf.valueBytes, [33, 13, 33, 33])],
          mptCalls := ctx.mptCalls ++ [(pf, 32, 114, pf.maxDepth)] }) := by
  rw [parse_account_proof_phase0, if_pos ⟨hk, ha⟩]
  rfl

/-- Shape of any successful account-proof commit phase. -/
theorem parse_account_proof_phase0_shape (C : Collaborators) (ctx : Ctx)
    (root addr : List Nat) (pf : MPTFixedKeyProof)
    (w : EthAccountTraceWitness) (ctx1 : Ctx)
    (h : parse_account_proof_phase0 C ctx root addr pf = some (w, ctx1)) :
    w = ⟨⟨C.rlpArrayDecode pf.valueBytes [33, 13, 33, 33]⟩, ⟨pf, 32, 114, pf.maxDepth⟩⟩ ∧
    ctx1 = { ctx with
      accountCalls := ctx.accountCalls ++ [(root, addr, pf)],
      fixedQueries := ctx.fixedQueries ++ [addr],
      eqs := ctx.eqs ++ (C.keccakF addr).zip pf.keyBytes ++ pf.rootHashBytes.zip root,
      rlpArrayCalls := ctx.rlpArrayCalls ++ [(pf.valueBytes, [33, 13, 33, 33])],
      mptCalls := ctx.mptCalls ++ [(pf, 32, 114, pf.maxDepth)] } := by
  rw [parse_account_proof_phase0] at h
  split at h
  · simp only [Option.some.injEq, Prod.mk.injEq] at h
    exact ⟨h.1.symm, h.2.symm⟩
  · exact absurd h (by simp)

/-- Shape of any successful storage-proof commit phase. -/
theorem parse_storage_proof_phase0_shape (C : Collaborators) (ctx : Ctx)
    (root slot : List Nat) (pf : MPTFixedKeyProof)
    (w : EthStorageTraceWitness) (ctx1 : Ctx)
    (h : parse_storage_proof_phase0 C ctx root slot pf = some (w, ctx1)) :
    w = ⟨⟨C.rlpFieldDecode pf.valueBytes 32⟩, ⟨pf, 32, 33, pf.maxDepth⟩⟩ ∧
    ctx1 = { ctx with
      storageCalls := ctx.storageCalls ++ [(root, slot, pf)],
      fixedQueries := ctx.fixedQueries ++ [slot],
      eqs := ctx.eqs ++ (C.keccakF slot).zip pf.keyBytes ++ pf.rootHashBytes.zip root,
      rlpFieldCalls := ctx.rlpFieldCalls ++ [(pf.valueBytes, 32)],
      mptCalls := ctx.mptCalls ++ [(pf, 32, 33, pf.maxDepth)] } := by
  rw [parse_storage_proof_phase0] at h
  split at h
  · simp only [Option.some.injEq, Prod.mk.injEq] at h
    exact ⟨h.1.symm, h.2.symm⟩
  · exact absurd h (by simp)

/-- Characterization of the storage loop of `parse_eip1186_proofs_phase0`:
on success, the recorded storage-verifier calls extend the log by one
entry per input pair, each carrying the shared root, and only constraint
material is appended elsewhere. -/
theorem parseStorageList_spec (C : Collaborators) (root : List Nat) :
    ∀ (l : List (List Nat × MPTFixedKeyProof)) (ctx : Ctx)
      (ws : List EthStorageTraceWitness) (ctx2 : Ctx),
      parseStorageList C root ctx l = some (ws, ctx2) →
      ctx2.storageCalls = ctx.storageCalls ++ l.map (fun sp => (root, sp)) ∧
      ctx2.accountCalls = ctx.accountCalls ∧
      ∃ e, ctx2.eqs = ctx.eqs ++ e := by
  intro l
  induction l with
  | nil =>
    intro ctx ws ctx2 h
    simp only [parseStorageList, Option.some.injEq, Prod.mk.injEq] at h
    refine ⟨?_, ?_, [], ?_⟩ <;> simp [← h.2]
  | cons sp rest ih =>
    intro ctx ws ctx2 h
    rw [parseStorageList] at h
    cases h1 : parse_storage_proof_phase0 C ctx root sp.1 sp.2 with
    | none => rw [h1] at h; exact absurd h (by simp)
    | some p =>
      obtain ⟨w1, cx1⟩ := p
      rw [h1] at h
      dsimp only at h
      cases h2 : parseStorageList C root cx1 rest with
      | none => rw [h2] at h; exact absurd h (by simp)
      | some q =>
        obtain ⟨ws2, cx2⟩ := q
        rw [h2] at h
        dsimp only at h
        simp only [Option.some.injEq, Prod.mk.injEq] at h
        obtain ⟨hs1, hs2⟩ := parse_storage_proof_phase0_shape C ctx root sp.1 sp.2 w1 cx1 h1
        obtain ⟨ha, hb, e, he⟩ := ih cx1 ws2 cx2 h2
        refine ⟨?_, ?_, ?_⟩
        · rw [← h.2, ha, hs2]
          simp
        · rw [← h.2, hb, hs2]
        · refine ⟨(C.keccakF sp.1).zip sp.2.keyBytes ++ sp.2.rootHashBytes.zip root ++ e, ?_⟩
          rw [← h.2, he, hs2]
          simp

/-- Characterization of the storage loop of
`parse_eip1186_proofs_from_block_phase0`: on success, the digest
(slot, value) pairs are the input slots in order, each paired with the
value decoded from its own proof bundle; the storage-verifier calls all
carry the shared root; and only constraint material is appended
elsewhere. -/
theorem parseStorageListBlock_spec (C : Collaborators) (root : List Nat) :
    ∀ (l : List ((Nat × Nat) × MPTFixedKeyProof)) (ctx : Ctx)
      (ws : List EthStorageTraceWitness)
      (svs : List ((Nat × Nat) × (Nat × Nat))) (ctx2 : Ctx),
      parseStorageListBlock C root ctx l = some (ws, svs, ctx2) →
      svs = l.map (fun sp => (sp.1, slotDigestValue C sp.2)) ∧
      ctx2.storageCalls = ctx.storageCalls ++ l.map (fun sp => (root, h256Bytes sp.1, sp.2)) ∧
      ctx2.accountCalls = ctx.accountCalls ∧
      ∃ e, ctx2.eqs = ctx.eqs ++ e := by
  intro l
  induction l with
  | nil =>
    intro ctx ws svs ctx2 h
    simp only [parseStorageListBlock, Option.some.injEq, Prod.mk.injEq] at h
    refine ⟨by simp [← h.2.1], ?_, ?_, [], ?_⟩ <;> simp [← h.2.2]
  | cons sp rest ih =>
    intro ctx ws svs ctx2 h
    rw [parseStorageListBlock] at h
    cases h1 : parse_storage_proof_phase0 C ctx root (h256Bytes sp.1) sp.2 with
    | none => rw [h1] at h; exact absurd h (by simp)
    | some p =>
      obtain ⟨w1, cx1⟩ := p
      rw [h1] at h
      dsimp only at h
      cases h2 : parseStorageListBlock C root cx1 rest with
      | none => rw [h2] at h; exact absurd h (by simp)
      | some q =>
        obtain ⟨ws2, svs2, cx2⟩ := q
        rw [h2] at h
        dsimp only at h
        simp only [Option.some.injEq, Prod.mk.injEq] at h
        obtain ⟨hs1, hs2⟩ := parse_storage_proof_phase0_shape C ctx root (h256Bytes sp.1) sp.2
          w1 cx1 h1
        obtain ⟨hv, ha, hb, e, he⟩ := ih cx1 ws2 svs2 cx2 h2
        refine ⟨?_, ?_, ?_, ?_⟩
        · rw [← h.2.1, hv]
          simp
        · rw [← h.2.2, ha, hs2]
          simp
        · rw [← h.2.2, hb, hs2]
        · refine ⟨(C.keccakF (h256Bytes sp.1)).zip sp.2.keyBytes ++
            sp.2.rootHashBytes.zip root ++ e, ?_⟩
          rw [← h.2.2, he, hs2]
          simp

/-- Master characterization of any successful run of
`parse_eip1186_proofs_from_block_phase0`: the digest it builds, the
account witness, the decoded header fields, the single account-verifier
call (rooted at header field index 3), the storage-verifier calls (all
rooted at field index 2 of the decoded account record), and the position
of the block-hash byte-equality constraints. -/
theorem from_block_phase0_shape (C : Collaborators) (ctx : Ctx)
    (input : EthBlockStorageInputAssigned) (nw : Network)
    (w : EthBlockAccountStorageTraceWitness) (ctx4 : Ctx)
    (h : parse_eip1186_proofs_from_block_phase0 C ctx input nw = some (w, ctx4)) :
    w.digest = ⟨input.blockHash,
      bytes_be_to_uint (bytes_be_var_to_fixed
        ((C.headerDecode (listResize input.blockHeader (networkMaxLen C nw) 0)).getD 8
          ⟨[], 0⟩).fieldCells
        ((C.headerDecode (listResize input.blockHeader (networkMaxLen C nw) 0)).getD 8
          ⟨[], 0⟩).fieldLen 4) 4,
      input.storage.address,
      input.storage.storagePfs.map (fun sp => (sp.1, slotDigestValue C sp.2))⟩ ∧
    w.acctWitness = ⟨⟨C.rlpArrayDecode input.storage.acctPf.valueBytes [33, 13, 33, 33]⟩,
      ⟨input.storage.acctPf, 32, 114, input.storage.acctPf.maxDepth⟩⟩ ∧
    w.blockWitness.rlpWitness.fieldWitness =
      C.headerDecode (listResize input.blockHeader (networkMaxLen C nw) 0) ∧
    ctx4.accountCalls = ctx.accountCalls ++
      [(((C.headerDecode (listResize input.blockHeader (networkMaxLen C nw) 0)).getD 3
          ⟨[], 0⟩).fieldCells,
        uint_to_bytes_be input.storage.address 20, input.storage.acctPf)] ∧
    ctx4.storageCalls = ctx.storageCalls ++ input.storage.storagePfs.map (fun sp =>
      (((C.rlpArrayDecode input.storage.acctPf.valueBytes [33, 13, 33, 33]).getD 2
          ⟨[], 0⟩).fieldCells,
       h256Bytes sp.1, sp.2)) ∧
    (∃ rest, ctx4.eqs = ctx.eqs ++
      (h256Bytes input.blockHash).zip
        (C.keccakF (listResize input.blockHeader (networkMaxLen C nw) 0)) ++ rest) := by
  simp only [parse_eip1186_proofs_from_block_phase0, decompose_block_header_phase0,
    keccak_var_len, varQueryOutput, getD_concat_length] at h
  split at h
  · exact absurd h (by simp)
  · rename_i acctW ctx3 hacct
    split at h
    · exact absurd h (by simp)
    · rename_i ws svs ctx4x hlist
      simp only [Option.some.injEq, Prod.mk.injEq] at h
      obtain ⟨hw, hc⟩ := h
      subst hw hc
      obtain ⟨ha1, ha2⟩ := parse_account_proof_phase0_shape C _ _ _ _ acctW ctx3 hacct
      obtain ⟨hv, hsc, hac, e, he⟩ := parseStorageListBlock_spec C _ _ ctx3 ws svs ctx4x hlist
      subst ha1
      refine ⟨?_, rfl, rfl, ?_, ?_, ?_⟩
      · simp [hv]
      · rw [hac, ha2]
        simp [constrainEqs]
      · rw [hsc, ha2]
        simp [constrainEqs]
      · refine ⟨(C.keccakF (uint_to_bytes_be input.storage.address 20)).zip
          input.storage.acctPf.keyBytes ++
          input.storage.acctPf.rootHashBytes.zip
            ((C.headerDecode (listResize input.blockHeader (networkMaxLen C nw) 0)).getD 3
              ⟨[], 0⟩).fieldCells ++ e, ?_⟩
        rw [he, ha2]
        simp [constrainEqs, h256Bytes]

/-- The challenge-response phase copies the commit-phase digest into the
final trace unchanged (mod.rs line 378). -/
theorem phase1_digest_eq (ctx : Ctx) (w : EthBlockAccountStorageTraceWitness) :
    (parse_eip1186_proofs_from_block_phase1 ctx w).1.digest = w.digest := rfl

theorem length_flatMap_quad {α : Type} (l : List α) (f : α → List Nat)
    (hf : ∀ a, (f a).length = 4) : (l.flatMap f).length = 4 * l.length := by
  induction l with
  | nil => simp
  | cons a t ih => simp [ih, hf]; omega

theorem digestInstance_length (d : EIP1186ResponseDigest) :
    (digestInstance d).length = 4 + 4 * d.slotsValues.length := by
  unfold digestInstance
  rw [List.length_append,
    length_flatMap_quad d.slotsValues (fun sv => [sv.1.1, sv.1.2, sv.2.1, sv.2.2])
      (fun a => rfl)]
  simp

theorem flatMap_map_eq {α β : Type} (f : α → β) (l : List α) (g : β → List Nat) :
    (l.map f).flatMap g = l.flatMap (fun a => g (f a)) := by
  induction l with
  | nil => rfl
  | cons a t ih => simp [ih]

/-- A `flatMap` that reads only the slot and claimed value of each input
triple factors through those projections. -/
theorem flatMap_claimed_only {α : Type} (l : List (Nat × Nat × α))
    (g : Nat × Nat → List Nat) :
    (l.flatMap fun t => g (t.1, t.2.1)) = (l.map fun t => (t.1, t.2.1)).flatMap g := by
  induction l with
  | nil => rfl
  | cons a t ih => simp [ih]

/-- C2: For every call of the account-proof verifier commit phase with a
20-byte address, a proof bundle with declared key byte length 32, and 32
state-root bytes, the produced witness constrains byte-for-byte
Keccak256(address) against the proof key bytes and the proof root bytes
against the supplied state-root bytes, registers the RLP decomposition
of the proof value as a 4-field record with per-field maximum byte
lengths [33, 13, 33, 33], and registers the MPT inclusion check with key
length 32, maximum value length 114, and the declared maximum depth. -/
theorem account_proof_commit_constraints (C : Collaborators) (ctx : Ctx)
    (root addr : List Nat) (pf : MPTFixedKeyProof)
    (ha : addr.length = 20) (hk : pf.keyByteLen = 32) (_hr : root.length = 32) :
    ∃ w ctx1, parse_account_proof_phase0 C ctx root addr pf = some (w, ctx1) ∧
      ctx1.eqs = ctx.eqs ++ (C.keccakF addr).zip pf.keyBytes ++
        pf.rootHashBytes.zip root ∧
      ctx1.rlpArrayCalls = ctx.rlpArrayCalls ++ [(pf.valueBytes, [33, 13, 33, 33])] ∧
      ctx1.mptCalls = ctx.mptCalls ++ [(pf, 32, 114, pf.maxDepth)] ∧
      w.arrayWitness.fieldWitness = C.rlpArrayDecode pf.valueBytes [33, 13, 33, 33] ∧
      w.mptWitness = ⟨pf, 32, 114, pf.maxDepth⟩ := by
  exact ⟨_, _, parse_account_proof_phase0_explicit C ctx root addr pf hk ha,
    rfl, rfl, rfl, rfl, rfl⟩

/-- Witness for C2 at concrete executable inputs. -/
theorem account_proof_commit_constraints_witness :
    ∃ w ctx1, parse_account_proof_phase0 sampleC Ctx.empty (List.replicate 32 8)
      sampleAddrBytes samplePf = some (w, ctx1) ∧
      ctx1.mptCalls = [] ++ [(samplePf, 32, 114, samplePf.maxDepth)] := by
  obtain ⟨w, ctx1, h1, -, -, h4, -⟩ :=
    account_proof_commit_constraints sampleC Ctx.empty (List.replicate 32 8)
      sampleAddrBytes samplePf (by decide) (by decide) (by decide)
  exact ⟨w, ctx1, h1, h4⟩

/-- C7: For every input whose address is not exactly 20 bytes or whose
account proof declares a key byte length other than 32, witness
construction aborts (returns nothing) before the commit round completes,
rather than producing an unsatisfiable constraint system. -/
theorem bad_address_or_key_len_aborts (C : Collaborators) (ctx : Ctx)
    (root addr : List Nat) (pf : MPTFixedKeyProof)
    (h : addr.length ≠ 20 ∨ pf.keyByteLen ≠ 32) :
    parse_account_proof_phase0 C ctx root addr pf = none := by
  rw [parse_account_proof_phase0, if_neg]
  intro hcon
  rcases h with h | h
  · exact h hcon.2
  · exact h hcon.1

/-- Witness for C7 at concrete executable inputs: a 0-byte address and,
separately, a declared key length of 31 both abort. -/
theorem bad_address_or_key_len_aborts_witness :
    parse_account_proof_phase0 sampleC Ctx.empty [] [] samplePf = none ∧
    parse_account_proof_phase0 sampleC Ctx.empty [] sampleAddrBytes samplePfBad = none :=
  ⟨bad_address_or_key_len_aborts sampleC Ctx.empty [] [] samplePf (Or.inl (by decide)),
   bad_address_or_key_len_aborts sampleC Ctx.empty [] sampleAddrBytes samplePfBad
     (Or.inr (by decide))⟩

/-- C3: In both composed pipelines, the root bytes passed to every
storage-proof verification are exactly the byte cells of field index 2
(the storage root) of the account witness's decoded 4-field record — the
recorded storage-verifier calls all carry that root and no other. -/
theorem storage_root_from_account_field2 (C : Collaborators) :
    (∀ (ctx : Ctx) (stateRoot addr : List Nat) (acctPf : MPTFixedKeyProof)
       (storagePfs : List (List Nat × MPTFixedKeyProof))
       (res : (EthAccountTraceWitness × List EthStorageTraceWitness) × Ctx),
       parse_eip1186_proofs_phase0 C ctx stateRoot addr acctPf storagePfs = some res →
       res.2.storageCalls = ctx.storageCalls ++ storagePfs.map (fun sp =>
         ((res.1.1.arrayWitness.fieldWitness.getD 2 ⟨[], 0⟩).fieldCells, sp))) ∧
    (∀ (ctx : Ctx) (input : EthBlockStorageInputAssigned) (nw : Network)
       (res : EthBlockAccountStorageTraceWitness × Ctx),
       parse_eip1186_proofs_from_block_phase0 C ctx input nw = some res →
       res.2.storageCalls = ctx.storageCalls ++ input.storage.storagePfs.map (fun sp =>
         ((res.1.acctWitness.arrayWitness.fieldWitness.getD 2 ⟨[], 0⟩).fieldCells,
          h256Bytes sp.1, sp.2))) := by
  constructor
  · intro ctx stateRoot addr acctPf storagePfs res h
    simp only [parse_eip1186_proofs_phase0] at h
    split at h
    · exact absurd h (by simp)
    · rename_i acctW ctx1 hacct
      split at h
      · exact absurd h (by simp)
      · rename_i ws ctx2 hlist
        obtain ⟨hs, -, -⟩ := parseStorageList_spec C _ storagePfs ctx1 ws ctx2 hlist
        obtain ⟨-, ha2⟩ := parse_account_proof_phase0_shape C ctx stateRoot addr acctPf
          acctW ctx1 hacct
        simp only [Option.some.injEq] at h
        rw [← h, hs, ha2]
  · intro ctx input nw res h
    obtain ⟨-, hacct, -, -, hsc, -⟩ :=
      from_block_phase0_shape C ctx input nw res.1 res.2 h
    rw [hsc, hacct]

/-- Witness for C3 at concrete executable inputs. -/
theorem storage_root_from_account_field2_witness :
    ∃ res, parse_eip1186_proofs_from_block_phase0 sampleC Ctx.empty sampleRaw.assign
        Network.Mainnet = some res ∧
      res.2.storageCalls = Ctx.empty.storageCalls ++
        sampleRaw.assign.storage.storagePfs.map (fun sp =>
          ((res.1.acctWitness.arrayWitness.fieldWitness.getD 2 ⟨[], 0⟩).fieldCells,
           h256Bytes sp.1, sp.2)) := by
  have hsome : (parse_eip1186_proofs_from_block_phase0 sampleC Ctx.empty sampleRaw.assign
      Network.Mainnet).isSome = true := by decide
  obtain ⟨res, hres⟩ := Option.isSome_iff_exists.mp hsome
  exact ⟨res, hres, (storage_root_from_account_field2 sampleC).2 Ctx.empty
    sampleRaw.assign Network.Mainnet res hres⟩

/-- C4: During the commit phase of the block pipeline, the 32 bytes
obtained by expanding the declared block hash halves (16 big-endian
bytes each) are constrained byte-equal to the output bytes of the
header's own Keccak hash query — these equality constraints are emitted
as a contiguous block immediately after any pre-existing constraints. -/
theorem block_hash_constrained_to_header_hash (C : Collaborators) (ctx : Ctx)
    (input : EthBlockStorageInputAssigned) (nw : Network)
    (res : EthBlockAccountStorageTraceWitness × Ctx)
    (h : parse_eip1186_proofs_from_block_phase0 C ctx input nw = some res) :
    ∃ rest, res.2.eqs = ctx.eqs ++
      (uint_to_bytes_be input.blockHash.1 16 ++ uint_to_bytes_be input.blockHash.2 16).zip
        (C.keccakF (listResize input.blockHeader (networkMaxLen C nw) 0)) ++ rest := by
  obtain ⟨-, -, -, -, -, hr⟩ := from_block_phase0_shape C ctx input nw res.1 res.2 h
  exact hr

/-- Witness for C4 at concrete executable inputs. -/
theorem block_hash_constrained_to_header_hash_witness :
    ∃ res, parse_eip1186_proofs_from_block_phase0 sampleC Ctx.empty sampleRaw.assign
        Network.Mainnet = some res ∧
      ∃ rest, res.2.eqs = Ctx.empty.eqs ++
        (uint_to_bytes_be sampleRaw.assign.blockHash.1 16 ++
          uint_to_bytes_be sampleRaw.assign.blockHash.2 16).zip
          (sampleC.keccakF (listResize sampleRaw.assign.blockHeader
            (networkMaxLen sampleC Network.Mainnet) 0)) ++ rest := by
  have hsome : (parse_eip1186_proofs_from_block_phase0 sampleC Ctx.empty sampleRaw.assign
      Network.Mainnet).isSome = true := by decide
  obtain ⟨res, hres⟩ := Option.isSome_iff_exists.mp hsome
  exact ⟨res, hres, block_hash_constrained_to_header_hash sampleC Ctx.empty
    sampleRaw.assign Network.Mainnet res hres⟩

/-- C5: The block pipeline takes its candidate state root from header
field index 3 (it is the root the single account-verifier call is made
with, alongside the 20 reconstructed address bytes), and its digest
block number from header field index 8, left-padded to exactly 4 bytes
and reinterpreted as a big-endian unsigned integer. -/
theorem state_root_and_block_number_extraction (C : Collaborators) (ctx : Ctx)
    (input : EthBlockStorageInputAssigned) (nw : Network)
    (res : EthBlockAccountStorageTraceWitness × Ctx)
    (h : parse_eip1186_proofs_from_block_phase0 C ctx input nw = some res) :
    res.2.accountCalls = ctx.accountCalls ++
      [(((C.headerDecode (listResize input.blockHeader (networkMaxLen C nw) 0)).getD 3
          ⟨[], 0⟩).fieldCells,
        uint_to_bytes_be input.storage.address 20, input.storage.acctPf)] ∧
    res.1.digest.blockNumber = bytes_be_to_uint (bytes_be_var_to_fixed
      ((C.headerDecode (listResize input.blockHeader (networkMaxLen C nw) 0)).getD 8
        ⟨[], 0⟩).fieldCells
      ((C.headerDecode (listResize input.blockHeader (networkMaxLen C nw) 0)).getD 8
        ⟨[], 0⟩).fieldLen 4) 4 := by
  obtain ⟨hd, -, -, hac, -, -⟩ := from_block_phase0_shape C ctx input nw res.1 res.2 h
  exact ⟨hac, by rw [hd]⟩

/-- Witness for C5 at concrete executable inputs. -/
theorem state_root_and_block_number_extraction_witness :
    ∃ res, parse_eip1186_proofs_from_block_phase0 sampleC Ctx.empty sampleRaw.assign
        Network.Mainnet = some res ∧
      res.2.accountCalls = Ctx.empty.accountCalls ++
        [(((sampleC.headerDecode (listResize sampleRaw.assign.blockHeader
            (networkMaxLen sampleC Network.Mainnet) 0)).getD 3 ⟨[], 0⟩).fieldCells,
          uint_to_bytes_be sampleRaw.assign.storage.address 20,
          sampleRaw.assign.storage.acctPf)] := by
  have hsome : (parse_eip1186_proofs_from_block_phase0 sampleC Ctx.empty sampleRaw.assign
      Network.Mainnet).isSome = true := by decide
  obtain ⟨res, hres⟩ := Option.isSome_iff_exists.mp hsome
  exact ⟨res, hres, (state_root_and_block_number_extraction sampleC Ctx.empty
    sampleRaw.assign Network.Mainnet res hres).1⟩

/-- C6 counterexample: a concrete input whose header is strictly longer
than the network maximum, on which the commit phase nevertheless
completes and produces a witness — the core does not abort on oversized
headers. -/
theorem oversized_header_not_rejected :
    sampleRaw.assign.blockHeader.length > networkMaxLen sampleC Network.Mainnet ∧
    (parse_eip1186_proofs_from_block_phase0 sampleC Ctx.empty sampleRaw.assign
      Network.Mainnet).isSome = true := by
  constructor
  · decide
  · decide

/-- C6 amended: an input header longer than the network maximum is not
rejected; the `resize` step truncates it to exactly the maximum length
before header decoding, and the pipeline behaves identically to being
given the truncated header. -/
theorem oversized_header_truncated (C : Collaborators) (ctx : Ctx)
    (input : EthBlockStorageInputAssigned) (nw : Network) :
    parse_eip1186_proofs_from_block_phase0 C ctx input nw =
      parse_eip1186_proofs_from_block_phase0 C ctx
        { input with blockHeader := listResize input.blockHeader (networkMaxLen C nw) 0 }
        nw ∧
    (listResize input.blockHeader (networkMaxLen C nw) 0).length = networkMaxLen C nw := by
  constructor
  · simp only [parse_eip1186_proofs_from_block_phase0]
    rw [listResize_idem]
  · exact listResize_length _ _ _

/-- C1: The public instance vector produced by `synthesize` for an input
with N storage slots is exactly the flat sequence
[blockHash_hi, blockHash_lo, blockNumber, address, then per slot in
input order slot_hi, slot_lo, value_hi, value_lo], of total length
4 + 4N; and `num_instance` declares exactly that length (4 when N = 0). -/
theorem instance_layout_and_length (C : Collaborators) (c : EthBlockStorageCircuit)
    (inst : List Nat) (ctx : Ctx) (h : synthesize C c = some (inst, ctx)) :
    inst = [(encode_h256_to_field c.inputs.blockHash).1,
      (encode_h256_to_field c.inputs.blockHash).2,
      headerBlockNumber C c.inputs.blockHeader c.network,
      encode_addr_to_field c.inputs.storage.addr] ++
      c.inputs.storage.storagePfs.flatMap (fun t =>
        [(encode_h256_to_field t.1).1, (encode_h256_to_field t.1).2,
         (slotDigestValue C t.2.2.assign).1, (slotDigestValue C t.2.2.assign).2]) ∧
    inst.length = 4 + 4 * c.inputs.storage.storagePfs.length ∧
    c.num_instance = [4 + 4 * c.inputs.storage.storagePfs.length] := by
  simp only [synthesize] at h
  split at h
  · exact absurd h (by simp)
  · rename_i w ctx1 hph0
    simp only [Option.some.injEq, Prod.mk.injEq] at h
    obtain ⟨hinst, -⟩ := h
    obtain ⟨hd, -, -, -, -, -⟩ := from_block_phase0_shape C Ctx.empty c.inputs.assign
      c.network w ctx1 hph0
    refine ⟨?_, ?_, rfl⟩
    · rw [← hinst, phase1_digest_eq, hd]
      simp only [digestInstance, EthBlockStorageInput.assign, EthStorageInput.assign,
        headerBlockNumber, List.map_map, flatMap_map_eq]
      rfl
    · rw [← hinst, phase1_digest_eq, digestInstance_length, hd]
      simp [EthBlockStorageInput.assign, EthStorageInput.assign]

/-- Witness for C1 at concrete executable inputs (one storage slot). -/
theorem instance_layout_and_length_witness :
    ∃ inst ctx, synthesize sampleC sampleCircuit = some (inst, ctx) ∧
      inst.length = 4 + 4 * sampleCircuit.inputs.storage.storagePfs.length := by
  have hsome : (synthesize sampleC sampleCircuit).isSome = true := by decide
  obtain ⟨p, hp⟩ := Option.isSome_iff_exists.mp hsome
  exact ⟨p.1, p.2, hp, (instance_layout_and_length sampleC sampleCircuit p.1 p.2 hp).2.1⟩

/-- C8: Round trip — after assign, commit and challenge-response, the
digest read from the final trace is the commit-phase digest unchanged;
it reproduces the original block hash, address and slots bit-for-bit (in
hi/lo half encoding); and it is exactly a function of the declared block
hash, the header block-number field, the address, and each slot's own
proof bundle — the account record fields (nonce, balance, storage root,
code hash) never appear in it. -/
theorem round_trip_digest (C : Collaborators) (raw : EthBlockStorageInput)
    (nw : Network) (w : EthBlockAccountStorageTraceWitness) (ctx1 : Ctx)
    (h : parse_eip1186_proofs_from_block_phase0 C Ctx.empty raw.assign nw = some (w, ctx1)) :
    (parse_eip1186_proofs_from_block_phase1 ctx1 w).1.digest = w.digest ∧
    w.digest.blockHash = encode_h256_to_field raw.blockHash ∧
    w.digest.address = encode_addr_to_field raw.storage.addr ∧
    w.digest.slotsValues.map Prod.fst =
      raw.storage.storagePfs.map (fun t => encode_h256_to_field t.1) ∧
    w.digest = ⟨encode_h256_to_field raw.blockHash,
      headerBlockNumber C raw.blockHeader nw,
      encode_addr_to_field raw.storage.addr,
      raw.storage.storagePfs.map
        (fun t => (encode_h256_to_field t.1, slotDigestValue C t.2.2.assign))⟩ := by
  obtain ⟨hd, -, -, -, -, -⟩ := from_block_phase0_shape C Ctx.empty raw.assign nw w ctx1 h
  refine ⟨phase1_digest_eq ctx1 w, ?_, ?_, ?_, ?_⟩
  · rw [hd]
    rfl
  · rw [hd]
    rfl
  · rw [hd]
    simp [EthBlockStorageInput.assign, EthStorageInput.assign, List.map_map]
  · rw [hd]
    simp only [EthBlockStorageInput.assign, EthStorageInput.assign, headerBlockNumber,
      List.map_map]
    rfl

/-- Witness for C8 at concrete executable inputs. -/
theorem round_trip_digest_witness :
    ∃ w ctx1, parse_eip1186_proofs_from_block_phase0 sampleC Ctx.empty sampleRaw.assign
        Network.Mainnet = some (w, ctx1) ∧
      (parse_eip1186_proofs_from_block_phase1 ctx1 w).1.digest = w.digest ∧
      w.digest.blockHash = encode_h256_to_field sampleRaw.blockHash ∧
      w.digest.address = encode_addr_to_field sampleRaw.storage.addr := by
  have hsome : (parse_eip1186_proofs_from_block_phase0 sampleC Ctx.empty sampleRaw.assign
      Network.Mainnet).isSome = true := by decide
  obtain ⟨p, hp⟩ := Option.isSome_iff_exists.mp hsome
  obtain ⟨h1, h2, h3, -⟩ :=
    round_trip_digest sampleC sampleRaw Network.Mainnet p.1 p.2 hp
  exact ⟨p.1, p.2, hp, h1, h2, h3⟩

/-- C9: Determinism — two runs of the full pipeline on identical inputs
produce identical results: the same public instance values, the same
final digest, and the same constraint topology (the entire emission log
of registered constraints, hash queries and sub-proof registrations). -/
theorem pipeline_deterministic (C : Collaborators)
    (c1 c2 : EthBlockStorageCircuit) (h : c1 = c2) :
    synthesize C c1 = synthesize C c2 ∧
    parse_eip1186_proofs_from_block_phase0 C Ctx.empty c1.inputs.assign c1.network =
      parse_eip1186_proofs_from_block_phase0 C Ctx.empty c2.inputs.assign c2.network := by
  rw [h]
  exact ⟨rfl, rfl⟩

/-- Witness for C9 at a concrete executable input. -/
theorem pipeline_deterministic_witness :
    synthesize sampleC sampleCircuit = synthesize sampleC sampleCircuit :=
  (pipeline_deterministic sampleC sampleCircuit sampleCircuit rfl).1

/-- C10: The externally computed public instance is derived purely from
the raw claimed inputs — declared block hash, declared block number,
address and claimed (slot, value) pairs — independent of the header
bytes and proof bundles; it has length 4 + 4N, matching `num_instance`;
it follows exactly the in-circuit digest layout and hi/lo encoding
(it equals `digestInstance` of the digest-shaped repackaging of the raw
claims); and on any successful in-circuit run the in-circuit instance
has the same length. -/
theorem external_instance_derivation (C : Collaborators)
    (c c2 : EthBlockStorageCircuit) :
    c.instances = [c.instanceVec] ∧
    c.instanceVec = digestInstance (external_digest c) ∧
    c.instanceVec.length = 4 + 4 * c.inputs.storage.storagePfs.length ∧
    c.num_instance = [c.instanceVec.length] ∧
    (c.inputs.blockHash = c2.inputs.blockHash →
     c.inputs.blockNumber = c2.inputs.blockNumber →
     c.inputs.storage.addr = c2.inputs.storage.addr →
     c.inputs.storage.storagePfs.map (fun t => (t.1, t.2.1)) =
       c2.inputs.storage.storagePfs.map (fun t => (t.1, t.2.1)) →
     c.instanceVec = c2.instanceVec) ∧
    (∀ w ctx1, parse_eip1186_proofs_from_block_phase0 C Ctx.empty c.inputs.assign
        c.network = some (w, ctx1) →
      (digestInstance w.digest).length = c.instanceVec.length) := by
  have hlen : c.instanceVec.length = 4 + 4 * c.inputs.storage.storagePfs.length := by
    simp only [EthBlockStorageCircuit.instanceVec, List.length_append]
    rw [length_flatMap_quad c.inputs.storage.storagePfs
      (fun t => [(encode_h256_to_field t.1).1, (encode_h256_to_field t.1).2,
        (encode_u256_to_field t.2.1).1, (encode_u256_to_field t.2.1).2]) (fun a => rfl)]
    simp
  refine ⟨rfl, ?_, hlen, ?_, ?_, ?_⟩
  · simp only [EthBlockStorageCircuit.instanceVec, external_digest, digestInstance,
      flatMap_map_eq]
  · rw [hlen]
    rfl
  · intro h1 h2 h3 h4
    simp only [EthBlockStorageCircuit.instanceVec, h1, h2, h3]
    have := flatMap_claimed_only c.inputs.storage.storagePfs
      (fun p => [(encode_h256_to_field p.1).1, (encode_h256_to_field p.1).2,
        (encode_u256_to_field p.2).1, (encode_u256_to_field p.2).2])
    have that := flatMap_claimed_only c2.inputs.storage.storagePfs
      (fun p => [(encode_h256_to_field p.1).1, (encode_h256_to_field p.1).2,
        (encode_u256_to_field p.2).1, (encode_u256_to_field p.2).2])
    rw [this, that, h4]
  · intro w ctx1 hph0
    obtain ⟨hd, -, -, -, -, -⟩ := from_block_phase0_shape C Ctx.empty c.inputs.assign
      c.network w ctx1 hph0
    rw [digestInstance_length, hd, hlen]
    simp [EthBlockStorageInput.assign, EthStorageInput.assign]

/-- Witness for C10 at concrete executable inputs. -/
theorem external_instance_derivation_witness :
    sampleCircuit.instances = [sampleCircuit.instanceVec] ∧
    sampleCircuit.instanceVec = digestInstance (external_digest sampleCircuit) ∧
    sampleCircuit.instanceVec.length =
      4 + 4 * sampleCircuit.inputs.storage.storagePfs.length := by
  obtain ⟨h1, h2, h3, -⟩ :=
    external_instance_derivation sampleC sampleCircuit sampleCircuit
  exact ⟨h1, h2, h3⟩

end StorageVerify











